import Mathlib

/-!
Shallow embedding of the pixel-format conversion core of pdn-avif's
AvifNative library (ChromaSubsampling.cpp, DecodedImageConverter.cpp,
YUVConversionHelpers.cpp and the supporting headers).

Modelling conventions:
* C++ machine integers are modelled as Lean naturals; where 32-bit
  wrap-around matters (GetCopySizes) the reduction modulo 2^32 is written
  explicitly.
* IEEE-754 float arithmetic in the source is modelled exactly over the
  rationals.  Where a theorem depends on the value of a float computation
  the surrounding comment argues that the rational value and the float
  value agree (this only happens for the 8-bit identity limited-to-full
  table, whose truncation result is robust to float rounding).
* Sample planes are modelled as total functions from (row, column) to the
  logical sample value, abstracting strides and byte layout.  Each decoder
  routine writes every destination pixel of its copy rectangle exactly
  once, so the imperative loops are modelled as point-wise functions of
  the destination coordinates.
-/

namespace Avif

/-- CICPEnums.h: colour primaries code points (ITU-T H.273). -/
inductive CICPColorPrimaries where
  | BT709
  | Unspecified
  | BT470M
  | BT470BG
  | BT601
  | Smpte240
  | GenericFilm
  | BT2020
  | Xyz
  | Smpte431
  | Smpte432
  | Ebu3213
  deriving DecidableEq

/-- CICPEnums.h: transfer characteristics code points (ITU-T H.273). -/
inductive CICPTransferCharacteristics where
  | Reserved0
  | BT709
  | Unspecified
  | Reserved3
  | BT470M
  | BT470BG
  | BT601
  | Smpte240
  | Linear
  | Log100
  | Log100Sqrt10
  | IEC61966
  | BT1361
  | Srgb
  | BT2020TenBit
  | BT2020TwelveBit
  | Smpte2084
  | Smpte428
  | HLG
  deriving DecidableEq

/-- CICPEnums.h: matrix coefficients code points (ITU-T H.273).  The
YCgCoRe/YCgCoRo values (code points 15 and 16) are referenced by
DecodedImageConverter.cpp. -/
inductive CICPMatrixCoefficients where
  | Identity
  | BT709
  | Unspecified
  | Reserved3
  | FCC
  | BT470BG
  | BT601
  | Smpte240
  | YCgCo
  | BT2020NCL
  | BT2020CL
  | Smpte2085
  | CromatNCL
  | CromatCL
  | ICtCp
  | YCgCoRe
  | YCgCoRo
  deriving DecidableEq

/-- AvifNative.h: struct CICPColorData. -/
structure CICPColorData where
  colorPrimaries : CICPColorPrimaries
  transferCharacteristics : CICPTransferCharacteristics
  matrixCoefficients : CICPMatrixCoefficients
  fullRange : Bool
  deriving DecidableEq

/-- YUVConversionHelpers.h: struct YUVCoefficiants (sic). -/
structure YUVCoefficiants where
  kr : ℚ
  kg : ℚ
  kb : ℚ
  deriving DecidableEq

/-- YUVConversionHelpers.cpp: avifColourPrimariesTables.  Each entry maps
a primaries code point to its (rX, rY, gX, gY, bX, bY, wX, wY)
chromaticities. -/
def avifColourPrimariesTables :
    List (CICPColorPrimaries × (ℚ × ℚ × ℚ × ℚ × ℚ × ℚ × ℚ × ℚ)) :=
  [ (.BT709, (0.64, 0.33, 0.3, 0.6, 0.15, 0.06, 0.3127, 0.329)),
    (.BT470M, (0.67, 0.33, 0.21, 0.71, 0.14, 0.08, 0.310, 0.316)),
    (.BT470BG, (0.64, 0.33, 0.29, 0.60, 0.15, 0.06, 0.3127, 0.3290)),
    (.BT601, (0.630, 0.340, 0.310, 0.595, 0.155, 0.070, 0.3127, 0.3290)),
    (.Smpte240, (0.630, 0.340, 0.310, 0.595, 0.155, 0.070, 0.3127, 0.3290)),
    (.GenericFilm, (0.681, 0.319, 0.243, 0.692, 0.145, 0.049, 0.310, 0.316)),
    (.BT2020, (0.708, 0.292, 0.170, 0.797, 0.131, 0.046, 0.3127, 0.3290)),
    (.Xyz, (1.0, 0.0, 0.0, 1.0, 0.0, 0.0, 0.3333, 0.3333)),
    (.Smpte431, (0.680, 0.320, 0.265, 0.690, 0.150, 0.060, 0.314, 0.351)),
    (.Smpte432, (0.680, 0.320, 0.265, 0.690, 0.150, 0.060, 0.3127, 0.3290)),
    (.Ebu3213, (0.630, 0.340, 0.295, 0.605, 0.155, 0.077, 0.3127, 0.3290)) ]

/-- YUVConversionHelpers.cpp: avifNclxColourPrimariesGetValues.  Falls
back to the first table entry (BT.709) when the code point is unknown. -/
def avifNclxColourPrimariesGetValues (ancp : CICPColorPrimaries) :
    ℚ × ℚ × ℚ × ℚ × ℚ × ℚ × ℚ × ℚ :=
  match avifColourPrimariesTables.find? (fun e => decide (e.1 = ancp)) with
  | some e => e.2
  | none => (0.64, 0.33, 0.3, 0.6, 0.15, 0.06, 0.3127, 0.329)

/-- YUVConversionHelpers.cpp: matrixCoefficientsTables, the table-backed
standard (kr, kb) pairs. -/
def matrixCoefficientsTables : List (CICPMatrixCoefficients × ℚ × ℚ) :=
  [ (.BT709, 0.2126, 0.0722),
    (.FCC, 0.30, 0.11),
    (.BT470BG, 0.299, 0.114),
    (.BT601, 0.299, 0.114),
    (.Smpte240, 0.212, 0.087),
    (.BT2020NCL, 0.2627, 0.0593) ]

/-- YUVConversionHelpers.cpp: calcYUVInfoFromCICP.  Returns
some (kr, kg, kb) where the C++ returns true, none where it returns
false. -/
def calcYUVInfoFromCICP (cicp : CICPColorData) : Option (ℚ × ℚ × ℚ) :=
  if cicp.matrixCoefficients = CICPMatrixCoefficients.CromatNCL then
    let p := avifNclxColourPrimariesGetValues cicp.colorPrimaries
    let rX := p.1
    let rY := p.2.1
    let gX := p.2.2.1
    let gY := p.2.2.2.1
    let bX := p.2.2.2.2.1
    let bY := p.2.2.2.2.2.1
    let wX := p.2.2.2.2.2.2.1
    let wY := p.2.2.2.2.2.2.2
    let rZ := 1 - (rX + rY)
    let gZ := 1 - (gX + gY)
    let bZ := 1 - (bX + bY)
    let wZ := 1 - (wX + wY)
    let kr := (rY * (wX * (gY * bZ - bY * gZ) + wY * (bX * gZ - gX * bZ) + wZ * (gX * bY - bX * gY))) /
      (wY * (rX * (gY * bZ - bY * gZ) + gX * (bY * rZ - rY * bZ) + bX * (rY * gZ - gY * rZ)))
    let kb := (bY * (wX * (rY * gZ - gY * rZ) + wY * (gX * rZ - rX * gZ) + wZ * (rX * gY - gX * rY))) /
      (wY * (rX * (gY * bZ - bY * gZ) + gX * (bY * rZ - rY * bZ) + bX * (rY * gZ - gY * rZ)))
    some (kr, 1 - kr - kb, kb)
  else
    match matrixCoefficientsTables.find? (fun e => decide (e.1 = cicp.matrixCoefficients)) with
    | some e => some (e.2.1, 1 - e.2.1 - e.2.2, e.2.2)
    | none => none

/-- YUVConversionHelpers.cpp: GetYUVCoefficiants.  Starts from the BT.601
defaults kr = 0.299, kb = 0.114 (the MIAF default colour property) and
overrides them when calcYUVInfoFromCICP succeeds. -/
def GetYUVCoefficiants (colorInfo : CICPColorData) : YUVCoefficiants :=
  match calcYUVInfoFromCICP colorInfo with
  | some (kr, kg, kb) => { kr := kr, kg := kg, kb := kb }
  | none => { kr := 0.299, kg := 1 - 0.299 - 0.114, kb := 0.114 }

/-- aom_image.h: the subset of aom_img_fmt_t values used by the plugin.
The YV variants carry the AOM_IMG_FMT_UV_FLIP bit. -/
inductive AomImgFmt where
  | None
  | I420
  | I422
  | I444
  | I42016
  | I42216
  | I44416
  | YV12
  | AOMI420
  | AOMYV12
  | YV1216
  deriving DecidableEq

/-- Whether the format carries the AOM_IMG_FMT_UV_FLIP bit (the YV12
family). -/
def AomImgFmt.uvFlip : AomImgFmt → Bool
  | .YV12 => true
  | .AOMYV12 => true
  | .YV1216 => true
  | _ => false

/-- aom_image.h: aom_color_range_t. -/
inductive AomColorRange where
  | StudioRange
  | FullRange
  deriving DecidableEq

/-- aom_image.h: the fields of aom_image_t read by the conversion code.
Sample planes are modelled as total functions from (row, column) to the
logical sample value; strides and the byte-level uint8/uint16 layout are
abstracted away. -/
structure AomImage where
  d_w : ℕ
  d_h : ℕ
  bit_depth : ℕ
  monochrome : Bool
  fmt : AomImgFmt
  range : AomColorRange
  x_chroma_shift : ℕ
  y_chroma_shift : ℕ
  planeY : ℕ → ℕ → ℕ
  planeU : ℕ → ℕ → ℕ
  planeV : ℕ → ℕ → ℕ

/-- The plane read through uPlaneIndex after the AOM_IMG_FMT_UV_FLIP
swap. -/
def uPlaneOf (image : AomImage) : ℕ → ℕ → ℕ :=
  if image.fmt.uvFlip then image.planeV else image.planeU

/-- The plane read through vPlaneIndex after the AOM_IMG_FMT_UV_FLIP
swap. -/
def vPlaneOf (image : AomImage) : ℕ → ℕ → ℕ :=
  if image.fmt.uvFlip then image.planeU else image.planeV

/-- DecodedImageConverter.cpp: BitmapDataPixelFormat, the output surface
formats understood by the converter.  OtherValue stands for any further
numeric value the C++ enum field could carry. -/
inductive BitmapDataPixelFormat where
  | Bgra32
  | Rgba64
  | Rgba128Float
  | OtherValue
  deriving DecidableEq

/-- One destination pixel.  The channels of every supported output
format (8-bit, 16-bit and 32-bit float) are modelled as rationals; the
integer formats store natural numbers embedded in ℚ. -/
structure Pix where
  r : ℚ
  g : ℚ
  b : ℚ
  a : ℚ
  deriving DecidableEq

/-- AvifNative.h / DecodedImageConverter.cpp: struct BitmapData together
with its pixel format tag.  The pixel buffer is modelled as a total
function from (x, y) to the pixel value. -/
structure BitmapData where
  width : ℕ
  height : ℕ
  format : BitmapDataPixelFormat
  pixels : ℕ → ℕ → Pix

/-- AvifNative.h: DecoderStatus, including the values used by
DecodedImageConverter.cpp and the tile-consistency values described in
the spec (section 4.5 / 7). -/
inductive DecoderStatus where
  | Ok
  | NullParameter
  | OutOfMemory
  | CodecInitFailed
  | DecodeFailed
  | UnsupportedBitDepth
  | UnknownYUVFormat
  | UnsupportedOutputPixelFormat
  | TileFormatMismatch
  | TileNclxProfileMismatch
  | ColorSizeMismatch
  | AlphaSizeMismatch
  deriving DecidableEq

/-- DecodedImageConverter.cpp: Clamp (float). -/
def Clamp (value min max : ℚ) : ℚ :=
  if value < min then min
  else if value > max then max
  else value

/-- DecodedImageConverter.cpp: Min (uint32). -/
def Min (a b : ℕ) : ℕ :=
  if a < b then a else b

/-- DecodedImageConverter.cpp: avifRoundf, floorf(v + 0.5f). -/
def avifRoundf (v : ℚ) : ℤ :=
  ⌊v + 0.5⌋

/-- The uint32 modulus. -/
def UINT32_LIMIT : ℕ := 4294967296

/-- DecodedImageConverter.cpp: GetCopySizes, the copyWidth half.  All
arithmetic is uint32: the products wrap modulo 2^32 and the subtraction
copyWidth -= (maxWidth - outputWidth) wraps as well. -/
def getCopyWidth (tileW colIdx outW : ℕ) : ℕ :=
  let maxWidth := tileW * (colIdx + 1) % UINT32_LIMIT
  if maxWidth > outW then
    (tileW + (UINT32_LIMIT - (maxWidth - outW))) % UINT32_LIMIT
  else tileW

/-- DecodedImageConverter.cpp: GetCopySizes, the copyHeight half. -/
def getCopyHeight (tileH rowIdx outH : ℕ) : ℕ :=
  let maxHeight := tileH * (rowIdx + 1) % UINT32_LIMIT
  if maxHeight > outH then
    (tileH + (UINT32_LIMIT - (maxHeight - outH))) % UINT32_LIMIT
  else tileH

/-- DecodedImageConverter.cpp: the luma bias of the YUVLookupTables
constructor: 16 << (bit_depth - 8) for studio range, 0 for full range. -/
def biasYQ (image : AomImage) : ℚ :=
  if image.range = AomColorRange.StudioRange then
    ((16 <<< (image.bit_depth - 8) : ℕ) : ℚ)
  else 0

/-- DecodedImageConverter.cpp: the chroma bias 1 << (bit_depth - 1). -/
def biasUVQ (image : AomImage) : ℚ :=
  ((1 <<< (image.bit_depth - 1) : ℕ) : ℚ)

/-- DecodedImageConverter.cpp: yuvMaxChannel = (1 << bit_depth) - 1 as a
float. -/
def yuvMaxChannelQ (image : AomImage) : ℚ :=
  (((1 <<< image.bit_depth) - 1 : ℕ) : ℚ)

/-- DecodedImageConverter.cpp: the luma range: 219 << (bit_depth - 8) for
studio range, yuvMaxChannel for full range. -/
def rangeYQ (image : AomImage) : ℚ :=
  if image.range = AomColorRange.StudioRange then
    ((219 <<< (image.bit_depth - 8) : ℕ) : ℚ)
  else yuvMaxChannelQ image

/-- DecodedImageConverter.cpp: the chroma range: 224 << (bit_depth - 8)
for studio range, yuvMaxChannel for full range. -/
def rangeUVQ (image : AomImage) : ℚ :=
  if image.range = AomColorRange.StudioRange then
    ((224 <<< (image.bit_depth - 8) : ℕ) : ℚ)
  else yuvMaxChannelQ image

/-- DecodedImageConverter.cpp: entry i of unormFloatTableY,
(i - biasY) / rangeY. -/
def unormFloatTableY (image : AomImage) (i : ℕ) : ℚ :=
  ((i : ℚ) - biasYQ image) / rangeYQ image

/-- DecodedImageConverter.cpp: entry i of unormFloatTableUV.  For the
identity matrix the chroma table shares the luma table, otherwise
(i - biasUV) / rangeUV. -/
def unormFloatTableUV (image : AomImage) (isIdentityMatrix : Bool) (i : ℕ) : ℚ :=
  if isIdentityMatrix then unormFloatTableY image i
  else ((i : ℚ) - biasUVQ image) / rangeUVQ image

/-- DecodedImageConverter.cpp: the YUVLookupTables data.  count is the
number of allocated entries of each table. -/
structure YUVLookupTables where
  count : ℕ
  tableY : ℕ → ℚ
  tableUV : ℕ → ℚ

/-- DecodedImageConverter.cpp: the YUVLookupTables constructor.  Throws
(models as an error result) unknown_bit_depth_error for bit depths other
than 8, 10, 12 and 16, which ConvertColorImage and ConvertAlphaImage
translate into UnsupportedBitDepth.  In the source the chroma table is
allocated only for colour images and left unallocated for monochrome
frames; the monochrome converters never read it, and it is modelled as
the zero table in that case. -/
def buildYUVLookupTables (image : AomImage) (isIdentityMatrix : Bool) :
    Except DecoderStatus YUVLookupTables :=
  if image.bit_depth ≠ 8 ∧ image.bit_depth ≠ 10 ∧
      image.bit_depth ≠ 12 ∧ image.bit_depth ≠ 16 then
    Except.error DecoderStatus.UnsupportedBitDepth
  else
    Except.ok
      { count := 1 <<< image.bit_depth
        tableY := unormFloatTableY image
        tableUV :=
          if image.monochrome then fun _ => 0
          else unormFloatTableUV image isIdentityMatrix }

/-- DecodedImageConverter.cpp: BuildIdentity8LimitedToFullYLookupTable.
The constexpr table stores static_cast of the float
(i - 16.0f) / 224.0f to uint8_t, i.e. the normalized value truncated
toward zero WITHOUT any scaling to the 0..255 range.  The truncation
result is unaffected by float rounding: for i < 16 the quotient is
negative (truncates to 0), for 16 <= i < 240 it lies in [0, 223/224]
whose float rounding stays strictly below 1, and for 240 <= i <= 255 it
lies in [1, 239/224] whose float rounding stays below 2.  Natural
subtraction and division reproduce exactly that value. -/
def identity8LimitedToFullY (i : ℕ) : ℕ :=
  (i - 16) / 224

/-- DecodedImageConverter.cpp: YUVDecodingMode. -/
inductive YUVDecodingMode where
  | YUVCoefficiants
  | YCgCo
  | YCgCoRe
  | YCgCoRo
  deriving DecidableEq

/-- DecodedImageConverter.cpp: YUVDecodeInfo. -/
structure YUVDecodeInfo where
  yuvCoefficiants : YUVCoefficiants
  mode : YUVDecodingMode

/-- DecodedImageConverter.cpp: GetYUVDecodeInfo.  The YCgCo family is
only recognised for the 4:4:4 formats; every other case resolves the
linear coefficients through GetYUVCoefficiants. -/
def GetYUVDecodeInfo (image : AomImage) (colorInfo : CICPColorData) : YUVDecodeInfo :=
  let mode :=
    if image.fmt = AomImgFmt.I444 ∨ image.fmt = AomImgFmt.I44416 then
      match colorInfo.matrixCoefficients with
      | .YCgCo => YUVDecodingMode.YCgCo
      | .YCgCoRe => YUVDecodingMode.YCgCoRe
      | .YCgCoRo => YUVDecodingMode.YCgCoRo
      | _ => YUVDecodingMode.YUVCoefficiants
    else YUVDecodingMode.YUVCoefficiants
  if mode = YUVDecodingMode.YUVCoefficiants then
    { yuvCoefficiants := GetYUVCoefficiants colorInfo, mode := mode }
  else
    { yuvCoefficiants := { kr := 0, kg := 0, kb := 0 }, mode := mode }

/-- Truncating cast of a float to uint8, as used for the 8-bit channel
stores static_cast of 0.5f + value * 255.0f.  Negative operands
(undefined behaviour in C++, unreachable on the paths the claims touch)
are modelled as 0. -/
def floatToU8 (v : ℚ) : ℕ :=
  (⌊0.5 + v * 255⌋).toNat

/-- Truncating cast of a float to uint16, as used for the 16-bit channel
stores static_cast of 0.5f + value * 65535.0f. -/
def floatToU16 (v : ℚ) : ℕ :=
  (⌊0.5 + v * 65535⌋).toNat

/-- DecodedImageConverter.cpp: the sample fetch of the 16-bit routines,
Min(plane sample, yuvMaxChannel) with yuvMaxChannel = (1 << bit_depth) - 1,
clamping the raw code to the lookup-table range. -/
def clampedSample (image : AomImage) (plane : ℕ → ℕ → ℕ) (row col : ℕ) : ℕ :=
  Min (plane row col) ((1 <<< image.bit_depth) - 1)

/-- The doubly nested copy loop shared by every conversion routine of
DecodedImageConverter.cpp: GetCopySizes picks the copy rectangle, the
destination rectangle starts at (tileColumnIndex * d_w,
tileRowIndex * d_h), and each destination pixel of the rectangle is
written exactly once from the tile-local coordinates, so the loop is the
point-wise function below. -/
def convertLoop (image : AomImage) (tileColumnIndex tileRowIndex : ℕ)
    (outputImage : BitmapData) (pixelAt : ℕ → ℕ → Pix → Pix) : BitmapData :=
  let copyWidth := getCopyWidth image.d_w tileColumnIndex outputImage.width
  let copyHeight := getCopyHeight image.d_h tileRowIndex outputImage.height
  let destX := tileColumnIndex * image.d_w
  let destY := tileRowIndex * image.d_h
  { outputImage with
    pixels := fun px py =>
      if destX ≤ px ∧ px < destX + copyWidth ∧ destY ≤ py ∧ py < destY + copyHeight then
        pixelAt (px - destX) (py - destY) (outputImage.pixels px py)
      else outputImage.pixels px py }

/-- DecodedImageConverter.cpp: Identity8ToRGB8Color.  Full-range samples
are copied directly (g from the Y plane, b from the U plane, r from the
V plane); studio-range samples go through the 256-entry
identity8LimitedToFullY table first.  The alpha channel is untouched. -/
def Identity8ToRGB8Color (image : AomImage) (tileColumnIndex tileRowIndex : ℕ)
    (outputImage : BitmapData) : BitmapData :=
  convertLoop image tileColumnIndex tileRowIndex outputImage (fun x y old =>
    let uvJ := y >>> image.y_chroma_shift
    let uvI := x >>> image.x_chroma_shift
    let unormY := image.planeY y x
    let unormU := uPlaneOf image uvJ uvI
    let unormV := vPlaneOf image uvJ uvI
    let unormY := if image.range = AomColorRange.StudioRange then identity8LimitedToFullY unormY else unormY
    let unormU := if image.range = AomColorRange.StudioRange then identity8LimitedToFullY unormU else unormU
    let unormV := if image.range = AomColorRange.StudioRange then identity8LimitedToFullY unormV else unormV
    { old with g := (unormY : ℚ), b := (unormU : ℚ), r := (unormV : ℚ) })

/-- DecodedImageConverter.cpp: Identity8ToRGB8Mono. -/
def Identity8ToRGB8Mono (image : AomImage) (tileColumnIndex tileRowIndex : ℕ)
    (outputImage : BitmapData) : BitmapData :=
  convertLoop image tileColumnIndex tileRowIndex outputImage (fun x y old =>
    let unormY := image.planeY y x
    let unormY := if image.range = AomColorRange.StudioRange then identity8LimitedToFullY unormY else unormY
    { old with r := (unormY : ℚ), g := (unormY : ℚ), b := (unormY : ℚ) })

/-- DecodedImageConverter.cpp: Identity16ToRGB32Color (float output, no
clamping). -/
def Identity16ToRGB32Color (image : AomImage) (tileColumnIndex tileRowIndex : ℕ)
    (tables : YUVLookupTables) (outputImage : BitmapData) : BitmapData :=
  convertLoop image tileColumnIndex tileRowIndex outputImage (fun x y old =>
    let uvJ := y >>> image.y_chroma_shift
    let uvI := x >>> image.x_chroma_shift
    let Y := tables.tableY (clampedSample image image.planeY y x)
    let Cb := tables.tableUV (clampedSample image (uPlaneOf image) uvJ uvI)
    let Cr := tables.tableUV (clampedSample image (vPlaneOf image) uvJ uvI)
    { old with r := Cr, g := Y, b := Cb })

/-- DecodedImageConverter.cpp: Identity16ToRGB32Mono (float output, no
clamping). -/
def Identity16ToRGB32Mono (image : AomImage) (tileColumnIndex tileRowIndex : ℕ)
    (tables : YUVLookupTables) (outputImage : BitmapData) : BitmapData :=
  convertLoop image tileColumnIndex tileRowIndex outputImage (fun x y old =>
    let Y := tables.tableY (clampedSample image image.planeY y x)
    { old with r := Y, g := Y, b := Y })

/-- DecodedImageConverter.cpp: Identity16ToRGB16Color. -/
def Identity16ToRGB16Color (image : AomImage) (tileColumnIndex tileRowIndex : ℕ)
    (tables : YUVLookupTables) (outputImage : BitmapData) : BitmapData :=
  convertLoop image tileColumnIndex tileRowIndex outputImage (fun x y old =>
    let uvJ := y >>> image.y_chroma_shift
    let uvI := x >>> image.x_chroma_shift
    let Y := tables.tableY (clampedSample image image.planeY y x)
    let Cb := tables.tableUV (clampedSample image (uPlaneOf image) uvJ uvI)
    let Cr := tables.tableUV (clampedSample image (vPlaneOf image) uvJ uvI)
    let R := Clamp Cr 0 1
    let G := Clamp Y 0 1
    let B := Clamp Cb 0 1
    { old with r := (floatToU16 R : ℚ), g := (floatToU16 G : ℚ), b := (floatToU16 B : ℚ) })

/-- DecodedImageConverter.cpp: Identity16ToRGB16Mono. -/
def Identity16ToRGB16Mono (image : AomImage) (tileColumnIndex tileRowIndex : ℕ)
    (tables : YUVLookupTables) (outputImage : BitmapData) : BitmapData :=
  convertLoop image tileColumnIndex tileRowIndex outputImage (fun x y old =>
    let Y := Clamp (tables.tableY (clampedSample image image.planeY y x)) 0 1
    let gray := (floatToU16 Y : ℚ)
    { old with r := gray, g := gray, b := gray })

/-- The RGB triple computed by the shared body of the linear / YCgCo
colour routines of DecodedImageConverter.cpp from the three table
values. -/
def yuvPixelToRGB (info : YUVDecodeInfo) (Y Cb Cr : ℚ) : ℚ × ℚ × ℚ :=
  if info.mode = YUVDecodingMode.YCgCo then
    let t := Y - Cb
    (t + Cr, Y + Cb, t - Cr)
  else
    let kr := info.yuvCoefficiants.kr
    let kg := info.yuvCoefficiants.kg
    let kb := info.yuvCoefficiants.kb
    (Y + (2 * (1 - kr)) * Cr,
     Y - ((2 * ((kr * (1 - kr) * Cr) + (kb * (1 - kb) * Cb))) / kg),
     Y + (2 * (1 - kb)) * Cb)

/-- DecodedImageConverter.cpp: YUV16ToRGB32Color (float output, no
clamping). -/
def YUV16ToRGB32Color (image : AomImage) (info : YUVDecodeInfo)
    (tables : YUVLookupTables) (tileColumnIndex tileRowIndex : ℕ)
    (outputImage : BitmapData) : BitmapData :=
  convertLoop image tileColumnIndex tileRowIndex outputImage (fun x y old =>
    let uvJ := y >>> image.y_chroma_shift
    let uvI := x >>> image.x_chroma_shift
    let Y := tables.tableY (clampedSample image image.planeY y x)
    let Cb := tables.tableUV (clampedSample image (uPlaneOf image) uvJ uvI)
    let Cr := tables.tableUV (clampedSample image (vPlaneOf image) uvJ uvI)
    let rgb := yuvPixelToRGB info Y Cb Cr
    { old with r := rgb.1, g := rgb.2.1, b := rgb.2.2 })

/-- DecodedImageConverter.cpp: YUV16ToRGB32Mono. -/
def YUV16ToRGB32Mono (image : AomImage) (tables : YUVLookupTables)
    (tileColumnIndex tileRowIndex : ℕ) (outputImage : BitmapData) : BitmapData :=
  convertLoop image tileColumnIndex tileRowIndex outputImage (fun x y old =>
    let Y := Clamp (tables.tableY (clampedSample image image.planeY y x)) 0 1
    { old with r := Y, g := Y, b := Y })

/-- DecodedImageConverter.cpp: YUV16ToRGB16Color. -/
def YUV16ToRGB16Color (image : AomImage) (info : YUVDecodeInfo)
    (tables : YUVLookupTables) (tileColumnIndex tileRowIndex : ℕ)
    (outputImage : BitmapData) : BitmapData :=
  convertLoop image tileColumnIndex tileRowIndex outputImage (fun x y old =>
    let uvJ := y >>> image.y_chroma_shift
    let uvI := x >>> image.x_chroma_shift
    let Y := tables.tableY (clampedSample image image.planeY y x)
    let Cb := tables.tableUV (clampedSample image (uPlaneOf image) uvJ uvI)
    let Cr := tables.tableUV (clampedSample image (vPlaneOf image) uvJ uvI)
    let rgb := yuvPixelToRGB info Y Cb Cr
    let clampedR := Clamp rgb.1 0 1
    let clampedG := Clamp rgb.2.1 0 1
    let clampedB := Clamp rgb.2.2 0 1
    { old with r := (floatToU16 clampedR : ℚ), g := (floatToU16 clampedG : ℚ),
               b := (floatToU16 clampedB : ℚ) })

/-- DecodedImageConverter.cpp: YUV16ToRGB16Mono. -/
def YUV16ToRGB16Mono (image : AomImage) (tables : YUVLookupTables)
    (tileColumnIndex tileRowIndex : ℕ) (outputImage : BitmapData) : BitmapData :=
  convertLoop image tileColumnIndex tileRowIndex outputImage (fun x y old =>
    let Y := Clamp (tables.tableY (clampedSample image image.planeY y x)) 0 1
    let gray := (floatToU16 Y : ℚ)
    { old with r := gray, g := gray, b := gray })

/-- The integer-domain YCgCo-Re/Ro reconstruction shared by the two
YCoCgR routines: formulas 62-65 of ITU-T H.273, using truncating int
division.  Returns the normalized (R, G, B) triple before the final
clamp to the unit interval. -/
def yCoCgRPixel (image : AomImage) (rgbMaxChannel : ℤ) (unormY : ℕ) (Cb Cr : ℚ) :
    ℚ × ℚ × ℚ :=
  let YY : ℤ := unormY
  let Cg : ℤ := avifRoundf (Cb * yuvMaxChannelQ image)
  let Co : ℤ := avifRoundf (Cr * yuvMaxChannelQ image)
  let t : ℤ := YY - Int.tdiv Cg 2
  let G := Clamp ((t + Cg : ℤ) : ℚ) 0 (rgbMaxChannel : ℚ)
  let B := Clamp ((t - Int.tdiv Co 2 : ℤ) : ℚ) 0 (rgbMaxChannel : ℚ)
  let R := Clamp (B + (Co : ℚ)) 0 (rgbMaxChannel : ℚ)
  (R / (rgbMaxChannel : ℚ), G / (rgbMaxChannel : ℚ), B / (rgbMaxChannel : ℚ))

/-- DecodedImageConverter.cpp: YUV16ToRGB16ColorYCoCgR. -/
def YUV16ToRGB16ColorYCoCgR (image : AomImage) (tables : YUVLookupTables)
    (tileColumnIndex tileRowIndex : ℕ) (outputImage : BitmapData) : BitmapData :=
  convertLoop image tileColumnIndex tileRowIndex outputImage (fun x y old =>
    let uvJ := y >>> image.y_chroma_shift
    let uvI := x >>> image.x_chroma_shift
    let unormY := clampedSample image image.planeY y x
    let Cb := tables.tableUV (clampedSample image (uPlaneOf image) uvJ uvI)
    let Cr := tables.tableUV (clampedSample image (vPlaneOf image) uvJ uvI)
    let rgb := yCoCgRPixel image 65535 unormY Cb Cr
    let clampedR := Clamp rgb.1 0 1
    let clampedG := Clamp rgb.2.1 0 1
    let clampedB := Clamp rgb.2.2 0 1
    { old with r := (floatToU16 clampedR : ℚ), g := (floatToU16 clampedG : ℚ),
               b := (floatToU16 clampedB : ℚ) })

/-- DecodedImageConverter.cpp: YUV16ToRGB8ColorYCoCgR. -/
def YUV16ToRGB8ColorYCoCgR (image : AomImage) (tables : YUVLookupTables)
    (tileColumnIndex tileRowIndex : ℕ) (outputImage : BitmapData) : BitmapData :=
  convertLoop image tileColumnIndex tileRowIndex outputImage (fun x y old =>
    let uvJ := y >>> image.y_chroma_shift
    let uvI := x >>> image.x_chroma_shift
    let unormY := clampedSample image image.planeY y x
    let Cb := tables.tableUV (clampedSample image (uPlaneOf image) uvJ uvI)
    let Cr := tables.tableUV (clampedSample image (vPlaneOf image) uvJ uvI)
    let rgb := yCoCgRPixel image 255 unormY Cb Cr
    let clampedR := Clamp rgb.1 0 1
    let clampedG := Clamp rgb.2.1 0 1
    let clampedB := Clamp rgb.2.2 0 1
    { old with r := (floatToU8 clampedR : ℚ), g := (floatToU8 clampedG : ℚ),
               b := (floatToU8 clampedB : ℚ) })

/-- DecodedImageConverter.cpp: YUV8ToRGB8Color.  The 8-bit path indexes
the tables with the raw uint8 sample (no Min clamp). -/
def YUV8ToRGB8Color (image : AomImage) (info : YUVDecodeInfo)
    (tables : YUVLookupTables) (tileColumnIndex tileRowIndex : ℕ)
    (outputImage : BitmapData) : BitmapData :=
  convertLoop image tileColumnIndex tileRowIndex outputImage (fun x y old =>
    let uvJ := y >>> image.y_chroma_shift
    let uvI := x >>> image.x_chroma_shift
    let Y := tables.tableY (image.planeY y x)
    let Cb := tables.tableUV (uPlaneOf image uvJ uvI)
    let Cr := tables.tableUV (vPlaneOf image uvJ uvI)
    let rgb := yuvPixelToRGB info Y Cb Cr
    let clampedR := Clamp rgb.1 0 1
    let clampedG := Clamp rgb.2.1 0 1
    let clampedB := Clamp rgb.2.2 0 1
    { old with r := (floatToU8 clampedR : ℚ), g := (floatToU8 clampedG : ℚ),
               b := (floatToU8 clampedB : ℚ) })

/-- DecodedImageConverter.cpp: YUV8ToRGB8Mono. -/
def YUV8ToRGB8Mono (image : AomImage) (tables : YUVLookupTables)
    (tileColumnIndex tileRowIndex : ℕ) (outputImage : BitmapData) : BitmapData :=
  convertLoop image tileColumnIndex tileRowIndex outputImage (fun x y old =>
    let Y := tables.tableY (image.planeY y x)
    let gray := (floatToU8 Y : ℚ)
    { old with r := gray, g := gray, b := gray })

/-- DecodedImageConverter.cpp: YUV16ToAlpha32.  Writes only the alpha
channel. -/
def YUV16ToAlpha32 (image : AomImage) (tileColumnIndex tileRowIndex : ℕ)
    (tables : YUVLookupTables) (outputImage : BitmapData) : BitmapData :=
  convertLoop image tileColumnIndex tileRowIndex outputImage (fun x y old =>
    let Y := tables.tableY (clampedSample image image.planeY y x)
    { old with a := Clamp Y 0 1 })

/-- DecodedImageConverter.cpp: YUV16ToAlpha16. -/
def YUV16ToAlpha16 (image : AomImage) (tileColumnIndex tileRowIndex : ℕ)
    (tables : YUVLookupTables) (outputImage : BitmapData) : BitmapData :=
  convertLoop image tileColumnIndex tileRowIndex outputImage (fun x y old =>
    let Y := tables.tableY (clampedSample image image.planeY y x)
    let A := Clamp Y 0 1
    { old with a := (floatToU16 A : ℚ) })

/-- DecodedImageConverter.cpp: YUV8ToAlpha8. -/
def YUV8ToAlpha8 (image : AomImage) (tileColumnIndex tileRowIndex : ℕ)
    (tables : YUVLookupTables) (outputImage : BitmapData) : BitmapData :=
  convertLoop image tileColumnIndex tileRowIndex outputImage (fun x y old =>
    let Y := tables.tableY (image.planeY y x)
    let A := Clamp Y 0 1
    { old with a := (floatToU8 A : ℚ) })

/-- DecodedImageConverter.cpp: ConvertColorImage.  Null parameters are
modelled as Option inputs; the returned surface is the (possibly
updated) output surface, returned unchanged on every failure path.  The
Identity / Bgra32 branch runs without building lookup tables; every
other branch builds them first (which reports UnsupportedBitDepth or,
in the source, can throw bad_alloc) before inspecting the output
format. -/
def ConvertColorImage (frame : Option AomImage) (colorInfo : Option CICPColorData)
    (tileColumnIndex tileRowIndex : ℕ) (outputImage : Option BitmapData) :
    DecoderStatus × Option BitmapData :=
  match frame, colorInfo, outputImage with
  | some frame, some colorInfo, some outputImage =>
    if colorInfo.matrixCoefficients = CICPMatrixCoefficients.Identity then
      if outputImage.format = BitmapDataPixelFormat.Bgra32 then
        if frame.monochrome then
          (DecoderStatus.Ok, some (Identity8ToRGB8Mono frame tileColumnIndex tileRowIndex outputImage))
        else
          (DecoderStatus.Ok, some (Identity8ToRGB8Color frame tileColumnIndex tileRowIndex outputImage))
      else
        match buildYUVLookupTables frame true with
        | .error e => (e, some outputImage)
        | .ok tables =>
          if outputImage.format = BitmapDataPixelFormat.Rgba64 then
            if frame.monochrome then
              (DecoderStatus.Ok, some (Identity16ToRGB16Mono frame tileColumnIndex tileRowIndex tables outputImage))
            else
              (DecoderStatus.Ok, some (Identity16ToRGB16Color frame tileColumnIndex tileRowIndex tables outputImage))
          else if outputImage.format = BitmapDataPixelFormat.Rgba128Float then
            if frame.monochrome then
              (DecoderStatus.Ok, some (Identity16ToRGB32Mono frame tileColumnIndex tileRowIndex tables outputImage))
            else
              (DecoderStatus.Ok, some (Identity16ToRGB32Color frame tileColumnIndex tileRowIndex tables outputImage))
          else
            (DecoderStatus.UnsupportedOutputPixelFormat, some outputImage)
    else
      match buildYUVLookupTables frame false with
      | .error e => (e, some outputImage)
      | .ok tables =>
        let yuvDecodeInfo := GetYUVDecodeInfo frame colorInfo
        if outputImage.format = BitmapDataPixelFormat.Bgra32 then
          if frame.monochrome then
            (DecoderStatus.Ok, some (YUV8ToRGB8Mono frame tables tileColumnIndex tileRowIndex outputImage))
          else if colorInfo.matrixCoefficients = CICPMatrixCoefficients.YCgCoRe ∨
              colorInfo.matrixCoefficients = CICPMatrixCoefficients.YCgCoRo then
            (DecoderStatus.Ok, some (YUV16ToRGB8ColorYCoCgR frame tables tileColumnIndex tileRowIndex outputImage))
          else
            (DecoderStatus.Ok, some (YUV8ToRGB8Color frame yuvDecodeInfo tables tileColumnIndex tileRowIndex outputImage))
        else if outputImage.format = BitmapDataPixelFormat.Rgba64 then
          if frame.monochrome then
            (DecoderStatus.Ok, some (YUV16ToRGB16Mono frame tables tileColumnIndex tileRowIndex outputImage))
          else if colorInfo.matrixCoefficients = CICPMatrixCoefficients.YCgCoRe ∨
              colorInfo.matrixCoefficients = CICPMatrixCoefficients.YCgCoRo then
            (DecoderStatus.Ok, some (YUV16ToRGB16ColorYCoCgR frame tables tileColumnIndex tileRowIndex outputImage))
          else
            (DecoderStatus.Ok, some (YUV16ToRGB16Color frame yuvDecodeInfo tables tileColumnIndex tileRowIndex outputImage))
        else if outputImage.format = BitmapDataPixelFormat.Rgba128Float then
          if frame.monochrome then
            (DecoderStatus.Ok, some (YUV16ToRGB32Mono frame tables tileColumnIndex tileRowIndex outputImage))
          else
            (DecoderStatus.Ok, some (YUV16ToRGB32Color frame yuvDecodeInfo tables tileColumnIndex tileRowIndex outputImage))
        else
          (DecoderStatus.UnsupportedOutputPixelFormat, some outputImage)
  | _, _, _ => (DecoderStatus.NullParameter, outputImage)

/-- DecodedImageConverter.cpp: ConvertAlphaImage. -/
def ConvertAlphaImage (frame : Option AomImage) (tileColumnIndex tileRowIndex : ℕ)
    (outputImage : Option BitmapData) : DecoderStatus × Option BitmapData :=
  match frame, outputImage with
  | some frame, some outputImage =>
    match buildYUVLookupTables frame false with
    | .error e => (e, some outputImage)
    | .ok tables =>
      if outputImage.format = BitmapDataPixelFormat.Bgra32 then
        (DecoderStatus.Ok, some (YUV8ToAlpha8 frame tileColumnIndex tileRowIndex tables outputImage))
      else if outputImage.format = BitmapDataPixelFormat.Rgba64 then
        (DecoderStatus.Ok, some (YUV16ToAlpha16 frame tileColumnIndex tileRowIndex tables outputImage))
      else if outputImage.format = BitmapDataPixelFormat.Rgba128Float then
        (DecoderStatus.Ok, some (YUV16ToAlpha32 frame tileColumnIndex tileRowIndex tables outputImage))
      else
        (DecoderStatus.UnsupportedOutputPixelFormat, some outputImage)
  | _, _ => (DecoderStatus.NullParameter, outputImage)

/-- AvifNative.h: struct ColorBgra, one 8-bit BGRA source pixel. -/
structure ColorBgra where
  b : ℕ
  g : ℕ
  r : ℕ
  a : ℕ
  deriving DecidableEq

/-- The caller-supplied BGRA surface consumed by the encoder path
(struct BitmapData of the encoder revision of AvifNative.h, which has no
pixel-format tag).  The buffer is modelled as a total function from
(x, y) to the pixel. -/
structure BgraSurface where
  width : ℕ
  height : ℕ
  pix : ℕ → ℕ → ColorBgra

/-- ChromaSubsampling.cpp: YuvChannel. -/
inductive YuvChannel where
  | Y
  | U
  | V
  deriving DecidableEq

/-- ChromaSubsampling.cpp: yuvToUNorm.  Chroma channels are re-biased by
+0.5, the value is clamped to [0, 1] and rounded to the nearest 8-bit
code with avifRoundf(v * 255). -/
def yuvToUNorm (chan : YuvChannel) (v : ℚ) : ℕ :=
  let v := if chan ≠ YuvChannel.Y then v + 0.5 else v
  let v := if v < 0 then 0 else if v > 1 then 1 else v
  (avifRoundf (v * 255)).toNat

/-- ChromaSubsampling.cpp: BuildUint8ToFloatLookupTable, entry i holds
i / 255. -/
def uint8ToFloatTable (i : ℕ) : ℚ :=
  (i : ℚ) / 255

/-- ChromaSubsampling.cpp: the RGB to YUV conversion of ColorToYUV8 for
one pixel: Y = kr*R + kg*G + kb*B, U = (B - Y) / (2*(1 - kb)),
V = (R - Y) / (2*(1 - kr)), on channels normalized through
uint8ToFloatTable. -/
def rgbPixelToYUV (kr kg kb : ℚ) (c : ColorBgra) : ℚ × ℚ × ℚ :=
  let r := uint8ToFloatTable c.r
  let g := uint8ToFloatTable c.g
  let b := uint8ToFloatTable c.b
  let Y := (kr * r) + (kg * g) + (kb * b)
  (Y, (b - Y) / (2 * (1 - kb)), (r - Y) / (2 * (1 - kr)))

/-- ChromaSubsampling.cpp: ColorToIdentity8.  The Y plane receives the
green channel, the U plane the blue channel and the V plane the red
channel of every pixel, with no subsampling (H.273 formulas 41-43).
Planes are indexed (row, column). -/
def ColorToIdentity8 (S : BgraSurface) : (ℕ → ℕ → ℕ) × (ℕ → ℕ → ℕ) × (ℕ → ℕ → ℕ) :=
  (fun y x => (S.pix x y).g, fun y x => (S.pix x y).b, fun y x => (S.pix x y).r)

/-- ChromaSubsampling.cpp: the aom_image_t produced by
ConvertColorToAOMImage for the IdentityMatrix format: 8-bit, colour
(monochrome false), 4:4:4 (chroma shifts 0), full range
(AOM_CR_FULL_RANGE is always asserted), planes filled by
ColorToIdentity8. -/
def identityEncodedFrame (S : BgraSurface) : AomImage :=
  { d_w := S.width
    d_h := S.height
    bit_depth := 8
    monochrome := false
    fmt := AomImgFmt.I444
    range := AomColorRange.FullRange
    x_chroma_shift := 0
    y_chroma_shift := 0
    planeY := (ColorToIdentity8 S).1
    planeU := (ColorToIdentity8 S).2.1
    planeV := (ColorToIdentity8 S).2.2 }

/-- ChromaSubsampling.cpp: blockWidth of ColorToYUV8,
(imageX + 1) < width ? 2 : 1. -/
def blockWidthAt (S : BgraSurface) (imageX : ℕ) : ℕ :=
  if imageX + 1 < S.width then 2 else 1

/-- ChromaSubsampling.cpp: blockHeight of ColorToYUV8,
(imageY + 1) < height ? 2 : 1. -/
def blockHeightAt (S : BgraSurface) (imageY : ℕ) : ℕ :=
  if imageY + 1 < S.height then 2 else 1

/-- The (Y, U, V) float triple ColorToYUV8 computes for one source
pixel, with the coefficients resolved once through GetYUVCoefficiants. -/
def pixelYUV (S : BgraSurface) (colorInfo : CICPColorData) (x y : ℕ) : ℚ × ℚ × ℚ :=
  let c := GetYUVCoefficiants colorInfo
  rgbPixelToYUV c.kr c.kg c.kb (S.pix x y)

/-- ChromaSubsampling.cpp: the sumU accumulation of the 4:2:0 branch of
ColorToYUV8 over the block at origin (imageX, imageY). -/
def blockSumU (S : BgraSurface) (colorInfo : CICPColorData) (imageX imageY : ℕ) : ℚ :=
  ((List.range (blockHeightAt S imageY)).map (fun bJ =>
    ((List.range (blockWidthAt S imageX)).map (fun bI =>
      (pixelYUV S colorInfo (imageX + bI) (imageY + bJ)).2.1)).sum)).sum

/-- ChromaSubsampling.cpp: the sumV accumulation of the 4:2:0 branch. -/
def blockSumV (S : BgraSurface) (colorInfo : CICPColorData) (imageX imageY : ℕ) : ℚ :=
  ((List.range (blockHeightAt S imageY)).map (fun bJ =>
    ((List.range (blockWidthAt S imageX)).map (fun bI =>
      (pixelYUV S colorInfo (imageX + bI) (imageY + bJ)).2.2)).sum)).sum

/-- ChromaSubsampling.cpp: avgU = sumU / totalSamples with
totalSamples = blockWidth * blockHeight. -/
def blockAvgU (S : BgraSurface) (colorInfo : CICPColorData) (imageX imageY : ℕ) : ℚ :=
  blockSumU S colorInfo imageX imageY /
    ((blockWidthAt S imageX * blockHeightAt S imageY : ℕ) : ℚ)

/-- ChromaSubsampling.cpp: avgV = sumV / totalSamples. -/
def blockAvgV (S : BgraSurface) (colorInfo : CICPColorData) (imageX imageY : ℕ) : ℚ :=
  blockSumV S colorInfo imageX imageY /
    ((blockWidthAt S imageX * blockHeightAt S imageY : ℕ) : ℚ)

/-- ChromaSubsampling.cpp: the chroma-plane writes performed by the
4:2:0 branch of ColorToYUV8, in loop order.  The outer loop steps
imageY by 2 while imageY < height (so it visits 2*bj for
bj < (height + 1) / 2), the inner loop steps imageX likewise, and for
each block one U and one V sample are stored at
(imageX >> 1, imageY >> 1) holding yuvToUNorm of the block averages.
Each list entry is ((chroma x, chroma y), (U sample, V sample)). -/
def ColorToYUV8ChromaWrites420 (S : BgraSurface) (colorInfo : CICPColorData) :
    List ((ℕ × ℕ) × ℕ × ℕ) :=
  (List.range ((S.height + 1) / 2)).flatMap (fun bj =>
    (List.range ((S.width + 1) / 2)).map (fun bi =>
      let imageX := 2 * bi
      let imageY := 2 * bj
      ((imageX >>> 1, imageY >>> 1),
        (yuvToUNorm YuvChannel.U (blockAvgU S colorInfo imageX imageY),
         yuvToUNorm YuvChannel.V (blockAvgV S colorInfo imageX imageY)))))

/-- The arithmetic mean of the per-pixel U values over all pixels
actually present in the (up to) 2x2 block at origin (imageX, imageY),
i.e. over columns imageX..min(imageX+2, width)-1 and rows
imageY..min(imageY+2, height)-1, as the specification words it.  Kept
separate from blockAvgU (which is translated from the source) so the two
can be compared. -/
def blockMeanUSpec (S : BgraSurface) (colorInfo : CICPColorData) (imageX imageY : ℕ) : ℚ :=
  let cols := min (imageX + 2) S.width - imageX
  let rows := min (imageY + 2) S.height - imageY
  (((List.range rows).map (fun bJ =>
    ((List.range cols).map (fun bI =>
      (pixelYUV S colorInfo (imageX + bI) (imageY + bJ)).2.1)).sum)).sum) /
    ((cols * rows : ℕ) : ℚ)

/-- The spec-worded mean of the per-pixel V values over the pixels
present in the block, the companion of blockMeanUSpec. -/
def blockMeanVSpec (S : BgraSurface) (colorInfo : CICPColorData) (imageX imageY : ℕ) : ℚ :=
  let cols := min (imageX + 2) S.width - imageX
  let rows := min (imageY + 2) S.height - imageY
  (((List.range rows).map (fun bJ =>
    ((List.range cols).map (fun bI =>
      (pixelYUV S colorInfo (imageX + bI) (imageY + bJ)).2.2)).sum)).sum) /
    ((cols * rows : ℕ) : ℚ)

/-- AvifNative.h: YUVChromaSubsampling. -/
inductive YUVChromaSubsampling where
  | Subsampling420
  | Subsampling422
  | Subsampling444
  | Subsampling400
  | IdentityMatrix
  deriving DecidableEq

/-- AvifNative.h: struct DecoderImageInfo, the per-tile metadata the
native decoder hands back to the tiled-decoding layer. -/
structure DecoderImageInfo where
  width : ℕ
  height : ℕ
  bitDepth : ℕ
  chromaSubsampling : YUVChromaSubsampling
  cicpData : CICPColorData
  deriving DecidableEq

/-- Modelled from the spec: TileDecodeState (spec section 3).  The
managed tiled-decoding layer that owns this record is not part of src/;
the fields follow the spec's data model: the first tile's bit depth,
chroma-subsampling classification and resolved CICP triplet, recorded as
the authoritative reference for the rest of the grid. -/
structure TileDecodeState where
  expectedWidth : ℕ
  expectedHeight : ℕ
  bitDepth : ℕ
  chromaSubsampling : YUVChromaSubsampling
  firstTileColorData : CICPColorData

/-- Modelled from the spec: the subsequent-tile half of
ValidateAndRecordTile (spec section 4.5), which is not under src/.  The
tile's bit depth must equal the recorded value (else TileFormatMismatch),
its plane-format classification must match the recorded one (else
TileFormatMismatch), and - when no container-level colour override
exists - its own CICP triplet must exactly equal the recorded first-tile
triplet in all four fields (else TileNclxProfileMismatch). -/
def validateSubsequentTile (containerColorInfo : Option CICPColorData)
    (state : TileDecodeState) (tile : DecoderImageInfo) : Except DecoderStatus Unit :=
  if tile.bitDepth ≠ state.bitDepth then
    Except.error DecoderStatus.TileFormatMismatch
  else if tile.chromaSubsampling ≠ state.chromaSubsampling then
    Except.error DecoderStatus.TileFormatMismatch
  else if containerColorInfo = none ∧ tile.cicpData ≠ state.firstTileColorData then
    Except.error DecoderStatus.TileNclxProfileMismatch
  else
    Except.ok ()

/-- Modelled from the spec: decoding one subsequent tile of an image
grid (spec sections 4.4-4.5): the tile is validated against the recorded
first-tile state before any conversion, and only on success is the
decoded frame converted into the output surface (with the container
override, when present, taking precedence over the tile's own triplet).
On a validation failure the output surface is returned untouched. -/
def decodeSubsequentTile (containerColorInfo : Option CICPColorData)
    (state : TileDecodeState) (tile : DecoderImageInfo) (frame : AomImage)
    (tileColumnIndex tileRowIndex : ℕ) (outputImage : BitmapData) :
    DecoderStatus × BitmapData :=
  match validateSubsequentTile containerColorInfo state tile with
  | .error e => (e, outputImage)
  | .ok _ =>
    match ConvertColorImage (some frame)
        (some (containerColorInfo.getD tile.cicpData))
        tileColumnIndex tileRowIndex (some outputImage) with
    | (s, some o) => (s, o)
    | (s, none) => (s, outputImage)

/-! Shared concrete fixtures used by witness theorems. -/

/-- A 2x2 8-bit full-range 4:4:4 colour frame with zero planes. -/
def fixtureFrame8 : AomImage :=
  { d_w := 2
    d_h := 2
    bit_depth := 8
    monochrome := false
    fmt := AomImgFmt.I444
    range := AomColorRange.FullRange
    x_chroma_shift := 0
    y_chroma_shift := 0
    planeY := fun _ _ => 0
    planeU := fun _ _ => 0
    planeV := fun _ _ => 0 }

/-- The lookup tables buildYUVLookupTables produces for fixtureFrame8
with isIdentityMatrix = false. -/
def fixtureTables8 : YUVLookupTables :=
  { count := 1 <<< 8
    tableY := unormFloatTableY fixtureFrame8
    tableUV := unormFloatTableUV fixtureFrame8 false }

/-- A 2x2 Bgra32 output surface with constant pixels. -/
def fixtureOut : BitmapData :=
  { width := 2
    height := 2
    format := BitmapDataPixelFormat.Bgra32
    pixels := fun _ _ => { r := 0, g := 0, b := 0, a := 0 } }

/-- A 9-bit identity frame: an unsupported bit depth. -/
def fixtureFrame9 : AomImage :=
  { fixtureFrame8 with bit_depth := 9, monochrome := true }

/-- An identity-matrix CICP triplet. -/
def fixtureIdentityColor : CICPColorData :=
  { colorPrimaries := CICPColorPrimaries.BT709
    transferCharacteristics := CICPTransferCharacteristics.Srgb
    matrixCoefficients := CICPMatrixCoefficients.Identity
    fullRange := true }

/-- A BT.709 (non-identity) CICP triplet. -/
def fixtureBT709Color : CICPColorData :=
  { colorPrimaries := CICPColorPrimaries.BT709
    transferCharacteristics := CICPTransferCharacteristics.Srgb
    matrixCoefficients := CICPMatrixCoefficients.BT709
    fullRange := true }

/-- A 4x4 8-bit tile frame. -/
def fixtureTile4 : AomImage :=
  { fixtureFrame8 with d_w := 4, d_h := 4 }

/-- A 6x4 Bgra32 output surface, not a multiple of the 4x4 tile size. -/
def fixtureOut6x4 : BitmapData :=
  { width := 6
    height := 4
    format := BitmapDataPixelFormat.Bgra32
    pixels := fun _ _ => { r := 0, g := 0, b := 0, a := 0 } }

/-- A trivial linear decode info record. -/
def fixtureDecodeInfo : YUVDecodeInfo :=
  { yuvCoefficiants := { kr := 0.299, kg := 1 - 0.299 - 0.114, kb := 0.114 }
    mode := YUVDecodingMode.YUVCoefficiants }

/-- A 3x3 BGRA source surface with per-pixel channel values. -/
def fixtureSurface3 : BgraSurface :=
  { width := 3
    height := 3
    pix := fun x y => { b := 10 * x + y, g := 20 + x, r := 5 * y, a := 255 } }

/-- A 1x1 BGRA source surface with a distinctive pixel. -/
def fixtureSurface1 : BgraSurface :=
  { width := 1
    height := 1
    pix := fun _ _ => { b := 10, g := 20, r := 30, a := 40 } }

/-- A 1x1 Bgra32 output surface. -/
def fixtureOut1 : BitmapData :=
  { width := 1
    height := 1
    format := BitmapDataPixelFormat.Bgra32
    pixels := fun _ _ => { r := 0, g := 0, b := 0, a := 0 } }

/-- Tile-decode state recorded from a first tile carrying a BT.709
full-range triplet. -/
def fixtureTileState : TileDecodeState :=
  { expectedWidth := 4
    expectedHeight := 4
    bitDepth := 8
    chromaSubsampling := YUVChromaSubsampling.Subsampling420
    firstTileColorData := fixtureBT709Color }

/-- A subsequent tile whose own triplet claims BT.601 matrix
coefficients, differing from the recorded first-tile triplet. -/
def fixtureTileInfoBT601 : DecoderImageInfo :=
  { width := 2
    height := 2
    bitDepth := 8
    chromaSubsampling := YUVChromaSubsampling.Subsampling420
    cicpData :=
      { colorPrimaries := CICPColorPrimaries.BT709
        transferCharacteristics := CICPTransferCharacteristics.Srgb
        matrixCoefficients := CICPMatrixCoefficients.BT601
        fullRange := true } }

/-- Characterization of a successful buildYUVLookupTables call: it
succeeds exactly for bit depths 8, 10, 12 and 16 and then returns the
tables of the constructor body. -/
theorem buildYUVLookupTables_ok_iff (image : AomImage) (b : Bool) (tables : YUVLookupTables) :
    buildYUVLookupTables image b = Except.ok tables ↔
      (image.bit_depth = 8 ∨ image.bit_depth = 10 ∨ image.bit_depth = 12 ∨
        image.bit_depth = 16) ∧
      tables = { count := 1 <<< image.bit_depth
                 tableY := unormFloatTableY image
                 tableUV := if image.monochrome then fun _ => 0
                   else unormFloatTableUV image b } := by
  unfold buildYUVLookupTables
  split
  · rename_i h
    constructor
    · intro he
      exact Except.noConfusion he
    · rintro ⟨hd, -⟩
      tauto
  · rename_i h
    constructor
    · intro he
      injection he with he
      refine ⟨by tauto, he.symm⟩
    · rintro ⟨-, rfl⟩
      rfl

/-- C2: the 8-bit identity limited-to-full lookup table of
DecodedImageConverter.cpp does NOT rescale the studio-range codes to the
full 8-bit range: the float normalized value is cast to uint8 without
being scaled by 255, so raw code 16 maps to 0 as claimed, but raw code
235 maps to 0 instead of 255, and in fact every code below 240 maps
to 0 while codes 240..255 map to 1. -/
theorem c2_limited_to_full_table_collapses :
    identity8LimitedToFullY 16 = 0 ∧
    identity8LimitedToFullY 235 = 0 ∧
    identity8LimitedToFullY 100 = 0 ∧
    identity8LimitedToFullY 239 = 0 ∧
    identity8LimitedToFullY 240 = 1 ∧
    identity8LimitedToFullY 255 = 1 := by
  decide

/-- C6: for every CICP triplet whose matrix coefficients value is not
one of the six table-backed standard values and not the
chromaticity-derived (CromatNCL) value, GetYUVCoefficiants returns the
BT.601 defaults kr = 0.299, kb = 0.114 with kg = 1 - kr - kb, and the
resolver is total (it never reports an error). -/
theorem c6_unknown_matrix_falls_back_to_bt601 (c : CICPColorData)
    (h1 : c.matrixCoefficients ≠ CICPMatrixCoefficients.BT709)
    (h2 : c.matrixCoefficients ≠ CICPMatrixCoefficients.FCC)
    (h3 : c.matrixCoefficients ≠ CICPMatrixCoefficients.BT470BG)
    (h4 : c.matrixCoefficients ≠ CICPMatrixCoefficients.BT601)
    (h5 : c.matrixCoefficients ≠ CICPMatrixCoefficients.Smpte240)
    (h6 : c.matrixCoefficients ≠ CICPMatrixCoefficients.BT2020NCL)
    (h7 : c.matrixCoefficients ≠ CICPMatrixCoefficients.CromatNCL) :
    GetYUVCoefficiants c = { kr := 0.299, kg := 1 - 0.299 - 0.114, kb := 0.114 } := by
  obtain ⟨cp, tc, mc, fr⟩ := c
  cases mc <;> first | rfl | simp_all

/-- C6 witness: the BT.2100 ICtCp code point is not table-backed and not
chromaticity-derived, and resolves to the BT.601 defaults. -/
theorem c6_witness :
    GetYUVCoefficiants
        { colorPrimaries := CICPColorPrimaries.BT709
          transferCharacteristics := CICPTransferCharacteristics.Srgb
          matrixCoefficients := CICPMatrixCoefficients.ICtCp
          fullRange := true } =
      { kr := 0.299, kg := 1 - 0.299 - 0.114, kb := 0.114 } :=
  c6_unknown_matrix_falls_back_to_bt601 _ (by decide) (by decide) (by decide)
    (by decide) (by decide) (by decide) (by decide)

/-- C7: for every supported bit depth with full colour range, the luma
lookup table is monotonically non-decreasing in the raw code, its entry
at index 0 is 0 and its entry at index 2 ^ bitDepth - 1 is 1. -/
theorem c7_full_range_luma_table_monotone (image : AomImage) (b : Bool)
    (tables : YUVLookupTables)
    (hrange : image.range = AomColorRange.FullRange)
    (ht : buildYUVLookupTables image b = Except.ok tables) :
    (∀ i j, i ≤ j → tables.tableY i ≤ tables.tableY j) ∧
    tables.tableY 0 = 0 ∧
    tables.tableY (2 ^ image.bit_depth - 1) = 1 := by
  obtain ⟨hdepth, rfl⟩ := (buildYUVLookupTables_ok_iff image b tables).mp ht
  have hpos : 0 < (1 <<< image.bit_depth) - 1 := by
    rcases hdepth with h | h | h | h <;> rw [h] <;> decide
  have hm : (0 : ℚ) < (((1 <<< image.bit_depth) - 1 : ℕ) : ℚ) := by
    exact_mod_cast hpos
  have htab : ∀ i : ℕ,
      unormFloatTableY image i = (i : ℚ) / (((1 <<< image.bit_depth) - 1 : ℕ) : ℚ) := by
    intro i
    simp [unormFloatTableY, biasYQ, rangeYQ, yuvMaxChannelQ, hrange]
  refine ⟨?_, ?_, ?_⟩
  · intro i j hij
    show unormFloatTableY image i ≤ unormFloatTableY image j
    rw [htab, htab]
    exact (div_le_div_iff_of_pos_right hm).mpr (by exact_mod_cast hij)
  · show unormFloatTableY image 0 = 0
    rw [htab]
    simp
  · show unormFloatTableY image (2 ^ image.bit_depth - 1) = 1
    rw [htab]
    rw [show (2 : ℕ) ^ image.bit_depth - 1 = (1 <<< image.bit_depth) - 1 by
      rw [Nat.shiftLeft_eq, one_mul]]
    exact div_self (ne_of_gt hm)

/-- C7 witness: the 8-bit full-range fixture tables. -/
theorem c7_witness :
    (∀ i j, i ≤ j → fixtureTables8.tableY i ≤ fixtureTables8.tableY j) ∧
    fixtureTables8.tableY 0 = 0 ∧
    fixtureTables8.tableY (2 ^ fixtureFrame8.bit_depth - 1) = 1 :=
  c7_full_range_luma_table_monotone fixtureFrame8 false fixtureTables8 rfl rfl

/-- C10: whenever the lookup tables are built successfully they hold
exactly 2 ^ bit_depth entries, and the Min clamp the 16-bit routines
apply to every raw Y, U and V sample before indexing keeps the index
strictly below that size, for any raw sample value. -/
theorem c10_clamped_sample_index_in_bounds (image : AomImage) (b : Bool)
    (tables : YUVLookupTables)
    (ht : buildYUVLookupTables image b = Except.ok tables) :
    tables.count = 2 ^ image.bit_depth ∧
    ∀ plane row col, clampedSample image plane row col < tables.count := by
  obtain ⟨hdepth, rfl⟩ := (buildYUVLookupTables_ok_iff image b tables).mp ht
  have h1 : 0 < 1 <<< image.bit_depth := by
    rw [Nat.shiftLeft_eq, one_mul]
    exact pow_pos (by norm_num) _
  refine ⟨by simp [Nat.shiftLeft_eq], ?_⟩
  intro plane row col
  show Min (plane row col) ((1 <<< image.bit_depth) - 1) < 1 <<< image.bit_depth
  unfold Min
  split <;> omega

/-- C10 witness: the 8-bit fixture tables, probed with an out-of-range
sample value. -/
theorem c10_witness :
    fixtureTables8.count = 2 ^ fixtureFrame8.bit_depth ∧
    ∀ plane row col, clampedSample fixtureFrame8 plane row col < fixtureTables8.count :=
  c10_clamped_sample_index_in_bounds fixtureFrame8 false fixtureTables8 rfl

/-- C3 counterexample: a colour decode of a frame with bit depth 9 (not
in {8, 10, 12, 16}) through the identity-matrix Bgra32 dispatch branch
returns Ok, not UnsupportedBitDepth: that branch never builds the lookup
tables and performs no bit-depth validation, so the claim fails on this
branch. -/
theorem c3_counterexample :
    (ConvertColorImage (some fixtureFrame9) (some fixtureIdentityColor) 0 0
        (some fixtureOut)).1 = DecoderStatus.Ok ∧
    DecoderStatus.Ok ≠ DecoderStatus.UnsupportedBitDepth := by
  exact ⟨rfl, by decide⟩

/-- C3 (amended): every decode-to-surface dispatch branch that
constructs the lookup tables - that is, every colour branch except the
identity-matrix branch with Bgra32 output, and every alpha branch -
returns UnsupportedBitDepth when the frame's bit depth is not 8, 10, 12
or 16; the identity-to-Bgra32 branch performs no bit-depth check. -/
theorem c3_unsupported_bit_depth_detected (frame : AomImage) (ci : CICPColorData)
    (col row : ℕ) (out : BitmapData)
    (hd : ¬(frame.bit_depth = 8 ∨ frame.bit_depth = 10 ∨ frame.bit_depth = 12 ∨
      frame.bit_depth = 16))
    (hni : ci.matrixCoefficients = CICPMatrixCoefficients.Identity →
      out.format ≠ BitmapDataPixelFormat.Bgra32) :
    (ConvertColorImage (some frame) (some ci) col row (some out)).1 =
      DecoderStatus.UnsupportedBitDepth ∧
    (∀ (frame2 : AomImage) (out2 : BitmapData),
      ¬(frame2.bit_depth = 8 ∨ frame2.bit_depth = 10 ∨ frame2.bit_depth = 12 ∨
        frame2.bit_depth = 16) →
      (ConvertAlphaImage (some frame2) col row (some out2)).1 =
        DecoderStatus.UnsupportedBitDepth) := by
  constructor
  · have hcond : frame.bit_depth ≠ 8 ∧ frame.bit_depth ≠ 10 ∧ frame.bit_depth ≠ 12 ∧
        frame.bit_depth ≠ 16 := by tauto
    have herrT : buildYUVLookupTables frame true =
        Except.error DecoderStatus.UnsupportedBitDepth := by
      rw [buildYUVLookupTables, if_pos hcond]
    have herrF : buildYUVLookupTables frame false =
        Except.error DecoderStatus.UnsupportedBitDepth := by
      rw [buildYUVLookupTables, if_pos hcond]
    by_cases hmc : ci.matrixCoefficients = CICPMatrixCoefficients.Identity
    · have hfmt := hni hmc
      simp [ConvertColorImage, hmc, hfmt, herrT]
    · simp [ConvertColorImage, hmc, herrF]
  · intro frame2 out2 hd2
    have hcond2 : frame2.bit_depth ≠ 8 ∧ frame2.bit_depth ≠ 10 ∧ frame2.bit_depth ≠ 12 ∧
        frame2.bit_depth ≠ 16 := by tauto
    have herr2 : buildYUVLookupTables frame2 false =
        Except.error DecoderStatus.UnsupportedBitDepth := by
      rw [buildYUVLookupTables, if_pos hcond2]
    simp [ConvertAlphaImage, herr2]

/-- C3 witness: a 9-bit frame decoded through the BT.709 colour path and
through the alpha path both report UnsupportedBitDepth. -/
theorem c3_witness :
    (ConvertColorImage (some fixtureFrame9) (some fixtureBT709Color) 0 0
        (some fixtureOut)).1 = DecoderStatus.UnsupportedBitDepth ∧
    (ConvertAlphaImage (some fixtureFrame9) 0 0 (some fixtureOut)).1 =
      DecoderStatus.UnsupportedBitDepth := by
  have h := c3_unsupported_bit_depth_detected fixtureFrame9 fixtureBT709Color 0 0
    fixtureOut (by decide) (by decide)
  exact ⟨h.1, h.2 fixtureFrame9 fixtureOut (by decide)⟩

/-- Every colour conversion either succeeds or returns the output
surface untouched. -/
theorem convertColorImage_ok_or_unchanged (f : AomImage) (c : CICPColorData)
    (col row : ℕ) (o : BitmapData) :
    (ConvertColorImage (some f) (some c) col row (some o)).1 = DecoderStatus.Ok ∨
    (ConvertColorImage (some f) (some c) col row (some o)).2 = some o := by
  by_cases hmc : c.matrixCoefficients = CICPMatrixCoefficients.Identity
  · by_cases hfmt : o.format = BitmapDataPixelFormat.Bgra32
    · by_cases hmono : f.monochrome <;> simp [ConvertColorImage, hmc, hfmt, hmono]
    · rcases hb : buildYUVLookupTables f true with e | t
      · simp [ConvertColorImage, hmc, hfmt, hb]
      · by_cases h64 : o.format = BitmapDataPixelFormat.Rgba64
        · by_cases hmono : f.monochrome <;>
            simp [ConvertColorImage, hmc, hfmt, hb, h64, hmono]
        · by_cases h128 : o.format = BitmapDataPixelFormat.Rgba128Float
          · by_cases hmono : f.monochrome <;>
              simp [ConvertColorImage, hmc, hfmt, hb, h64, h128, hmono]
          · simp [ConvertColorImage, hmc, hfmt, hb, h64, h128]
  · rcases hb : buildYUVLookupTables f false with e | t
    · simp [ConvertColorImage, hmc, hb]
    · by_cases hfmt : o.format = BitmapDataPixelFormat.Bgra32
      · by_cases hmono : f.monochrome
        · simp [ConvertColorImage, hmc, hb, hfmt, hmono]
        · by_cases hyc : c.matrixCoefficients = CICPMatrixCoefficients.YCgCoRe ∨
              c.matrixCoefficients = CICPMatrixCoefficients.YCgCoRo <;>
            simp [ConvertColorImage, hmc, hb, hfmt, hmono, hyc]
      · by_cases h64 : o.format = BitmapDataPixelFormat.Rgba64
        · by_cases hmono : f.monochrome
          · simp [ConvertColorImage, hmc, hb, hfmt, h64, hmono]
          · by_cases hyc : c.matrixCoefficients = CICPMatrixCoefficients.YCgCoRe ∨
                c.matrixCoefficients = CICPMatrixCoefficients.YCgCoRo <;>
              simp [ConvertColorImage, hmc, hb, hfmt, h64, hmono, hyc]
        · by_cases h128 : o.format = BitmapDataPixelFormat.Rgba128Float
          · by_cases hmono : f.monochrome <;>
              simp [ConvertColorImage, hmc, hb, hfmt, h64, h128, hmono]
          · simp [ConvertColorImage, hmc, hb, hfmt, h64, h128]

/-- Every alpha conversion either succeeds or returns the output surface
untouched. -/
theorem convertAlphaImage_ok_or_unchanged (f : AomImage) (col row : ℕ) (o : BitmapData) :
    (ConvertAlphaImage (some f) col row (some o)).1 = DecoderStatus.Ok ∨
    (ConvertAlphaImage (some f) col row (some o)).2 = some o := by
  rcases hb : buildYUVLookupTables f false with e | t
  · simp [ConvertAlphaImage, hb]
  · by_cases hfmt : o.format = BitmapDataPixelFormat.Bgra32
    · simp [ConvertAlphaImage, hb, hfmt]
    · by_cases h64 : o.format = BitmapDataPixelFormat.Rgba64
      · simp [ConvertAlphaImage, hb, hfmt, h64]
      · by_cases h128 : o.format = BitmapDataPixelFormat.Rgba128Float <;>
          simp [ConvertAlphaImage, hb, hfmt, h64, h128]

/-- C9: whenever ConvertColorImage or ConvertAlphaImage returns any
status other than Ok, the output surface is returned completely
unmodified: every failure condition (null parameters, lookup-table
construction, output-format dispatch) is reached before any pixel is
written. -/
theorem c9_failure_leaves_output_unmodified :
    (∀ frame ci col row out,
      (ConvertColorImage frame ci col row out).1 ≠ DecoderStatus.Ok →
      (ConvertColorImage frame ci col row out).2 = out) ∧
    (∀ frame col row out,
      (ConvertAlphaImage frame col row out).1 ≠ DecoderStatus.Ok →
      (ConvertAlphaImage frame col row out).2 = out) := by
  constructor
  · intro frame ci col row out h
    rcases frame with - | f
    · rfl
    rcases ci with - | c
    · rfl
    rcases out with - | o
    · rfl
    rcases convertColorImage_ok_or_unchanged f c col row o with h1 | h2
    · exact absurd h1 h
    · exact h2
  · intro frame col row out h
    rcases frame with - | f
    · rfl
    rcases out with - | o
    · rfl
    rcases convertAlphaImage_ok_or_unchanged f col row o with h1 | h2
    · exact absurd h1 h
    · exact h2

/-- C9 witness: a null frame fails with NullParameter and leaves the
output untouched, and a 9-bit alpha frame fails with UnsupportedBitDepth
and leaves the output untouched. -/
theorem c9_witness :
    (ConvertColorImage none none 0 0 (some fixtureOut)).2 = some fixtureOut ∧
    (ConvertAlphaImage (some fixtureFrame9) 0 0 (some fixtureOut)).2 = some fixtureOut :=
  ⟨c9_failure_leaves_output_unmodified.1 none none 0 0 (some fixtureOut) (by decide),
   c9_failure_leaves_output_unmodified.2 (some fixtureFrame9) 0 0 (some fixtureOut)
     (by decide)⟩

/-- The copy width computed by GetCopySizes is the tile width clipped to
the remaining surface extent, provided the uint32 products do not
overflow and the tile starts inside the surface. -/
theorem getCopyWidth_eq_min (tileW colIdx outW : ℕ)
    (hov : tileW * (colIdx + 1) < UINT32_LIMIT)
    (hstart : tileW * colIdx ≤ outW) :
    getCopyWidth tileW colIdx outW = min tileW (outW - tileW * colIdx) := by
  have hlim : (0 : ℕ) < UINT32_LIMIT := by decide
  simp only [getCopyWidth]
  rw [Nat.mod_eq_of_lt hov]
  by_cases hgt : tileW * (colIdx + 1) > outW
  · rw [if_pos hgt]
    have hmul : tileW * (colIdx + 1) = tileW * colIdx + tileW := by ring
    have hk : tileW * (colIdx + 1) - outW ≤ tileW := by omega
    have hrw : tileW + (UINT32_LIMIT - (tileW * (colIdx + 1) - outW)) =
        (tileW - (tileW * (colIdx + 1) - outW)) + UINT32_LIMIT := by omega
    rw [hrw, Nat.add_mod_right, Nat.mod_eq_of_lt (by omega)]
    omega
  · rw [if_neg hgt]
    have hmul : tileW * (colIdx + 1) = tileW * colIdx + tileW := by ring
    omega

/-- The copy height computed by GetCopySizes is the tile height clipped
to the remaining surface extent, under the same side conditions. -/
theorem getCopyHeight_eq_min (tileH rowIdx outH : ℕ)
    (hov : tileH * (rowIdx + 1) < UINT32_LIMIT)
    (hstart : tileH * rowIdx ≤ outH) :
    getCopyHeight tileH rowIdx outH = min tileH (outH - tileH * rowIdx) := by
  exact getCopyWidth_eq_min tileH rowIdx outH hov hstart

/-- C4: the destination rectangle of a tile decode starts at
(tileColumnIndex * d_w, tileRowIndex * d_h); outside the rectangle whose
extent is the GetCopySizes result the output surface is untouched, and
that extent equals the tile's decoded size reduced by exactly the
overrun beyond the surface (the full tile size when it fits). -/
theorem c4_tile_placement_and_clipping (image : AomImage) (info : YUVDecodeInfo)
    (tables : YUVLookupTables) (col row : ℕ) (out : BitmapData)
    (hovW : image.d_w * (col + 1) < UINT32_LIMIT)
    (hovH : image.d_h * (row + 1) < UINT32_LIMIT)
    (hstartW : image.d_w * col ≤ out.width)
    (hstartH : image.d_h * row ≤ out.height) :
    getCopyWidth image.d_w col out.width =
      min image.d_w (out.width - image.d_w * col) ∧
    getCopyHeight image.d_h row out.height =
      min image.d_h (out.height - image.d_h * row) ∧
    ∀ px py,
      (YUV8ToRGB8Color image info tables col row out).pixels px py ≠ out.pixels px py →
      col * image.d_w ≤ px ∧
      px < col * image.d_w + getCopyWidth image.d_w col out.width ∧
      row * image.d_h ≤ py ∧
      py < row * image.d_h + getCopyHeight image.d_h row out.height := by
  refine ⟨getCopyWidth_eq_min _ _ _ hovW hstartW,
          getCopyHeight_eq_min _ _ _ hovH hstartH, ?_⟩
  intro px py hne
  by_cases hc : col * image.d_w ≤ px ∧
      px < col * image.d_w + getCopyWidth image.d_w col out.width ∧
      row * image.d_h ≤ py ∧
      py < row * image.d_h + getCopyHeight image.d_h row out.height
  · exact hc
  · exfalso
    apply hne
    simp only [YUV8ToRGB8Color, convertLoop]
    rw [if_neg hc]

/-- C4 witness: a 4x4 tile at grid position (1, 0) inside a 6x4 surface
is clipped to a 2x4 copy rectangle starting at column 4. -/
theorem c4_witness :
    getCopyWidth fixtureTile4.d_w 1 fixtureOut6x4.width =
      min fixtureTile4.d_w (fixtureOut6x4.width - fixtureTile4.d_w * 1) ∧
    getCopyHeight fixtureTile4.d_h 0 fixtureOut6x4.height =
      min fixtureTile4.d_h (fixtureOut6x4.height - fixtureTile4.d_h * 0) ∧
    ∀ px py,
      (YUV8ToRGB8Color fixtureTile4 fixtureDecodeInfo fixtureTables8 1 0
          fixtureOut6x4).pixels px py ≠ fixtureOut6x4.pixels px py →
      1 * fixtureTile4.d_w ≤ px ∧
      px < 1 * fixtureTile4.d_w + getCopyWidth fixtureTile4.d_w 1 fixtureOut6x4.width ∧
      0 * fixtureTile4.d_h ≤ py ∧
      py < 0 * fixtureTile4.d_h + getCopyHeight fixtureTile4.d_h 0 fixtureOut6x4.height :=
  c4_tile_placement_and_clipping fixtureTile4 fixtureDecodeInfo fixtureTables8 1 0
    fixtureOut6x4 (by decide) (by decide) (by decide) (by decide)

/-- C8: with no container-level colour override, a subsequent tile whose
CICP triplet differs in any field from the one recorded from the first
tile makes the tile decode return TileNclxProfileMismatch with the
output surface returned completely untouched. -/
theorem c8_nclx_mismatch_rejected (state : TileDecodeState) (tile : DecoderImageInfo)
    (frame : AomImage) (col row : ℕ) (out : BitmapData)
    (hbd : tile.bitDepth = state.bitDepth)
    (hcs : tile.chromaSubsampling = state.chromaSubsampling)
    (hne : tile.cicpData ≠ state.firstTileColorData) :
    decodeSubsequentTile none state tile frame col row out =
      (DecoderStatus.TileNclxProfileMismatch, out) := by
  simp [decodeSubsequentTile, validateSubsequentTile, hbd, hcs, hne]

/-- C8 witness: a first tile recorded as BT.709 full range followed by a
tile claiming BT.601 is rejected with TileNclxProfileMismatch and the
output surface is unchanged. -/
theorem c8_witness :
    decodeSubsequentTile none fixtureTileState fixtureTileInfoBT601 fixtureFrame8 1 0
        fixtureOut6x4 =
      (DecoderStatus.TileNclxProfileMismatch, fixtureOut6x4) :=
  c8_nclx_mismatch_rejected fixtureTileState fixtureTileInfoBT601 fixtureFrame8 1 0
    fixtureOut6x4 (by decide) (by decide) (by decide)

/-- C1: encoding an 8-bit BGRA surface with identity matrix coefficients
(Y plane from green, U plane from blue, V plane from red, 4:4:4, full
range) and decoding the resulting frame into a same-size Bgra32 surface
at tile (0, 0) succeeds and reproduces the red, green and blue channel
values of every pixel exactly. -/
theorem c1_identity_roundtrip_exact (S : BgraSurface) (ci : CICPColorData)
    (out : BitmapData)
    (hmc : ci.matrixCoefficients = CICPMatrixCoefficients.Identity)
    (hfmt : out.format = BitmapDataPixelFormat.Bgra32)
    (hw : out.width = S.width) (hh : out.height = S.height)
    (hw32 : S.width < UINT32_LIMIT) (hh32 : S.height < UINT32_LIMIT) :
    ∃ o, ConvertColorImage (some (identityEncodedFrame S)) (some ci) 0 0 (some out) =
        (DecoderStatus.Ok, some o) ∧
      ∀ x y, x < S.width → y < S.height →
        (o.pixels x y).r = ((S.pix x y).r : ℚ) ∧
        (o.pixels x y).g = ((S.pix x y).g : ℚ) ∧
        (o.pixels x y).b = ((S.pix x y).b : ℚ) := by
  refine ⟨Identity8ToRGB8Color (identityEncodedFrame S) 0 0 out, ?_, ?_⟩
  · simp [ConvertColorImage, hmc, hfmt, identityEncodedFrame]
  · intro x y hx hy
    have hcw : getCopyWidth S.width 0 out.width = S.width := by
      simp [getCopyWidth, hw, Nat.mod_eq_of_lt hw32]
    have hch : getCopyHeight S.height 0 out.height = S.height := by
      simp [getCopyHeight, hh, Nat.mod_eq_of_lt hh32]
    simp [Identity8ToRGB8Color, convertLoop, hcw, hch, identityEncodedFrame,
      ColorToIdentity8, uPlaneOf, vPlaneOf, AomImgFmt.uvFlip, hx, hy]

/-- C1 witness: the 1x1 fixture surface round-trips bit-exactly. -/
theorem c1_witness :
    ∃ o, ConvertColorImage (some (identityEncodedFrame fixtureSurface1))
        (some fixtureIdentityColor) 0 0 (some fixtureOut1) =
        (DecoderStatus.Ok, some o) ∧
      ∀ x y, x < fixtureSurface1.width → y < fixtureSurface1.height →
        (o.pixels x y).r = ((fixtureSurface1.pix x y).r : ℚ) ∧
        (o.pixels x y).g = ((fixtureSurface1.pix x y).g : ℚ) ∧
        (o.pixels x y).b = ((fixtureSurface1.pix x y).b : ℚ) :=
  c1_identity_roundtrip_exact fixtureSurface1 fixtureIdentityColor fixtureOut1
    rfl rfl rfl rfl (by decide) (by decide)

/-- Halving an even number with the source's right shift. -/
theorem two_mul_shiftRight_one (n : ℕ) : (2 * n) >>> 1 = n := by omega

/-- The source's blockWidth (2 for interior columns, 1 at an odd right
edge) equals the number of pixel columns present in the block. -/
theorem blockWidthAt_eq_present (S : BgraSurface) (imageX : ℕ) (h : imageX < S.width) :
    blockWidthAt S imageX = min (imageX + 2) S.width - imageX := by
  unfold blockWidthAt
  split <;> omega

/-- The source's blockHeight equals the number of pixel rows present in
the block. -/
theorem blockHeightAt_eq_present (S : BgraSurface) (imageY : ℕ) (h : imageY < S.height) :
    blockHeightAt S imageY = min (imageY + 2) S.height - imageY := by
  unfold blockHeightAt
  split <;> omega

/-- The 4:2:0 U average of the source equals the arithmetic mean over
the pixels present in the block, as the spec words it. -/
theorem blockAvgU_eq_mean_spec (S : BgraSurface) (ci : CICPColorData) (imageX imageY : ℕ)
    (hx : imageX < S.width) (hy : imageY < S.height) :
    blockAvgU S ci imageX imageY = blockMeanUSpec S ci imageX imageY := by
  simp only [blockAvgU, blockSumU, blockMeanUSpec]
  rw [blockWidthAt_eq_present S imageX hx, blockHeightAt_eq_present S imageY hy]

/-- The 4:2:0 V average of the source equals the arithmetic mean over
the pixels present in the block. -/
theorem blockAvgV_eq_mean_spec (S : BgraSurface) (ci : CICPColorData) (imageX imageY : ℕ)
    (hx : imageX < S.width) (hy : imageY < S.height) :
    blockAvgV S ci imageX imageY = blockMeanVSpec S ci imageX imageY := by
  simp only [blockAvgV, blockSumV, blockMeanVSpec]
  rw [blockWidthAt_eq_present S imageX hx, blockHeightAt_eq_present S imageY hy]

/-- The chroma positions written by the 4:2:0 loop are exactly the grid
of block indices. -/
theorem chromaWrites420_positions (S : BgraSurface) (ci : CICPColorData) :
    (ColorToYUV8ChromaWrites420 S ci).map Prod.fst =
      (List.range ((S.height + 1) / 2)).flatMap (fun bj =>
        (List.range ((S.width + 1) / 2)).map (fun bi => (bi, bj))) := by
  simp only [ColorToYUV8ChromaWrites420, List.map_flatMap, List.map_map,
    Function.comp_def, two_mul_shiftRight_one]

/-- Each in-range block contributes its mean-valued chroma entry to the
4:2:0 write list. -/
theorem chromaWrites420_mem (S : BgraSurface) (ci : CICPColorData) (bi bj : ℕ)
    (hbi : bi < (S.width + 1) / 2) (hbj : bj < (S.height + 1) / 2) :
    ((bi, bj),
      (yuvToUNorm YuvChannel.U (blockMeanUSpec S ci (2 * bi) (2 * bj)),
       yuvToUNorm YuvChannel.V (blockMeanVSpec S ci (2 * bi) (2 * bj)))) ∈
      ColorToYUV8ChromaWrites420 S ci := by
  have hx : 2 * bi < S.width := by omega
  have hy : 2 * bj < S.height := by omega
  unfold ColorToYUV8ChromaWrites420
  refine List.mem_flatMap.mpr ⟨bj, List.mem_range.mpr hbj, ?_⟩
  refine List.mem_map.mpr ⟨bi, List.mem_range.mpr hbi, ?_⟩
  simp only [two_mul_shiftRight_one, blockAvgU_eq_mean_spec S ci _ _ hx hy,
    blockAvgV_eq_mean_spec S ci _ _ hx hy]

/-- C5: the 4:2:0 encoder path processes the image in 2x2 blocks (a
1-wide or 1-tall partial block at an odd edge); every block writes
exactly one U and one V sample at chroma position
(imageX >> 1, imageY >> 1) whose values are the arithmetic mean of the
per-pixel U (resp. V) values over the pixels actually present in the
block, and the single bottom-right 1x1 block of a 3x3 image contributes
its own chroma sample unaveraged. -/
theorem c5_chroma_420_block_averaging (S : BgraSurface) (ci : CICPColorData) :
    ((ColorToYUV8ChromaWrites420 S ci).map Prod.fst).Nodup ∧
    (ColorToYUV8ChromaWrites420 S ci).length =
      ((S.width + 1) / 2) * ((S.height + 1) / 2) ∧
    (∀ bi bj, bi < (S.width + 1) / 2 → bj < (S.height + 1) / 2 →
      ((bi, bj),
        (yuvToUNorm YuvChannel.U (blockMeanUSpec S ci (2 * bi) (2 * bj)),
         yuvToUNorm YuvChannel.V (blockMeanVSpec S ci (2 * bi) (2 * bj)))) ∈
        ColorToYUV8ChromaWrites420 S ci) ∧
    (S.width = 3 → S.height = 3 →
      ((1, 1),
        (yuvToUNorm YuvChannel.U (pixelYUV S ci 2 2).2.1,
         yuvToUNorm YuvChannel.V (pixelYUV S ci 2 2).2.2)) ∈
        ColorToYUV8ChromaWrites420 S ci) := by
  refine ⟨?_, ?_, ?_, ?_⟩
  · rw [chromaWrites420_positions]
    refine List.nodup_flatMap.mpr ⟨?_, ?_⟩
    · intro bj _
      exact (List.nodup_range _).map (fun a b h => congrArg Prod.fst h)
    · refine List.Pairwise.imp ?_ (List.pairwise_lt_range _)
      intro bj bj' hlt p hp hp'
      rcases List.mem_map.1 hp with ⟨bi, -, rfl⟩
      rcases List.mem_map.1 hp' with ⟨bi', -, heq⟩
      injection heq with h1 h2
      omega
  · simp only [ColorToYUV8ChromaWrites420, List.length_flatMap, List.map_map,
      Function.comp_def, List.length_map, List.length_range, List.map_const',
      List.sum_replicate, smul_eq_mul]
    exact Nat.mul_comm _ _
  · intro bi bj hbi hbj
    exact chromaWrites420_mem S ci bi bj hbi hbj
  · intro hw3 hh3
    have hmem := chromaWrites420_mem S ci 1 1 (by omega) (by omega)
    have hu : blockMeanUSpec S ci 2 2 = (pixelYUV S ci 2 2).2.1 := by
      norm_num [blockMeanUSpec, hw3, hh3, List.range_succ, List.range_zero]
    have hv : blockMeanVSpec S ci 2 2 = (pixelYUV S ci 2 2).2.2 := by
      norm_num [blockMeanVSpec, hw3, hh3, List.range_succ, List.range_zero]
    norm_num [hu, hv] at hmem
    exact hmem

/-- C5 witness: on a concrete 3x3 surface, the block at (1, 0) carries
the mean of its two present pixels and the bottom-right 1x1 block
carries its own pixel's chroma unaveraged. -/
theorem c5_witness :
    (((1, 0),
      (yuvToUNorm YuvChannel.U
        (blockMeanUSpec fixtureSurface3 fixtureBT709Color (2 * 1) (2 * 0)),
       yuvToUNorm YuvChannel.V
        (blockMeanVSpec fixtureSurface3 fixtureBT709Color (2 * 1) (2 * 0)))) ∈
      ColorToYUV8ChromaWrites420 fixtureSurface3 fixtureBT709Color) ∧
    (((1, 1),
      (yuvToUNorm YuvChannel.U (pixelYUV fixtureSurface3 fixtureBT709Color 2 2).2.1,
       yuvToUNorm YuvChannel.V (pixelYUV fixtureSurface3 fixtureBT709Color 2 2).2.2)) ∈
      ColorToYUV8ChromaWrites420 fixtureSurface3 fixtureBT709Color) := by
  have h := c5_chroma_420_block_averaging fixtureSurface3 fixtureBT709Color
  exact ⟨h.2.2.1 1 0 (by decide) (by decide), h.2.2.2 rfl rfl⟩

end Avif
